import Mathlib

/-!
Shallow embedding of the `POST /transcribe` handler of the whisper
transcription server (source: `server.js`, the variant with `startTime` /
`endTime` slicing).

JavaScript numbers are modelled as `JSNum`: either `NaN` or an exact
integer (see the comment on `JSNum` for why integers suffice here).  The
fragment of `Number(string)` coercion exercised by the handler (digit
strings, the empty string, and non-numeric garbage) is modelled exactly;
`Math.ceil`, `Math.max`, arithmetic and comparisons propagate `NaN` as
in JavaScript (`NaN` compares false).

Side effects (the ledger read, the two ffmpeg invocations, the upstream
upload, the archival copy, the three `fs.unlink` calls, and the ledger
increment) are recorded in order as an event trace returned next to the
HTTP response.  External outcomes (whether each `fetch` resolves or
rejects, whether each ffmpeg job succeeds, what the upstream body parses
to) are inputs in an `Env` record, so the handler itself is a pure
function `Request → Env → Response × List Event`.
-/

/-- A JavaScript number as it occurs in this handler: `NaN` or an exact
integer.  The only number sources in the pipeline are `Number` applied to
digit strings (integers), integer constants, the ledger's integer usage
count, and arithmetic on those, so the integer-or-`NaN` fragment is
exact; the single fractional computation (`… / 0.75`) is immediately
consumed by `Math.ceil` and is modelled exactly in `postEstimate`. -/
inductive JSNum where
  | nan : JSNum
  | num : ℤ → JSNum
deriving DecidableEq, Repr

namespace JSNum

/-- JS `+` on numbers: any `NaN` operand poisons the result. -/
def add : JSNum → JSNum → JSNum
  | num a, num b => num (a + b)
  | _, _ => nan

/-- JS `-` on numbers. -/
def sub : JSNum → JSNum → JSNum
  | num a, num b => num (a - b)
  | _, _ => nan

/-- JS `*` on numbers. -/
def mul : JSNum → JSNum → JSNum
  | num a, num b => num (a * b)
  | _, _ => nan

/-- JS `Math.max`: returns `NaN` if any argument is `NaN`. -/
def jmax : JSNum → JSNum → JSNum
  | num a, num b => num (max a b)
  | _, _ => nan

/-- JS `Math.ceil`: `NaN` maps to `NaN`; on the integer values of this
fragment it is the identity. -/
def ceil : JSNum → JSNum
  | num a => num a
  | nan => nan

/-- JS `<` on numbers: any comparison involving `NaN` is `false`. -/
def lt : JSNum → JSNum → Bool
  | num a, num b => decide (a < b)
  | _, _ => false

/-- JS `isNaN` on a number value. -/
def isNaN : JSNum → Bool
  | nan => true
  | num _ => false

end JSNum

/-- JS `String.prototype.split` with a one-character separator, on the
character list of the string: `"".split(c)` gives `[""]`, adjacent and
boundary separators yield empty segments. -/
def splitOnChar (c : Char) : List Char → List (List Char)
  | [] => [[]]
  | x :: xs =>
    if x = c then [] :: splitOnChar c xs
    else
      match splitOnChar c xs with
      | [] => [[x]]
      | y :: ys => (x :: y) :: ys

/-- Value of a list of decimal digit characters. -/
def digitsVal (l : List Char) : ℕ :=
  l.foldl (fun acc c => 10 * acc + (c.toNat - Char.toNat '0')) 0

/-- Whether one character list is an initial segment of another
(JS `String.prototype.startsWith` on the decoded characters). -/
def leadsWith : List Char → List Char → Bool
  | [], _ => true
  | _ :: _, [] => false
  | c :: cs, d :: ds => c = d && leadsWith cs ds

/-- The fragment of JS `Number(string)` coercion the handler exercises:
the empty string coerces to `0`, a nonempty all-digit string to its
decimal value, anything else to `NaN`. -/
def jsNumber (l : List Char) : JSNum :=
  if l = [] then JSNum.num 0
  else if l.all Char.isDigit then JSNum.num (digitsVal l)
  else JSNum.nan

/-- Function `timeToSeconds` from the handler:
`const [min, sec] = t.split(":").map(Number); return min * 60 + sec;`.
A missing second component destructures to `undefined`, which behaves as
`NaN` in the arithmetic. -/
def timeToSeconds (t : String) : JSNum :=
  let parts := (splitOnChar ':' t.data).map jsNumber
  let mins := parts.getD 0 JSNum.nan
  let secs := parts.getD 1 JSNum.nan
  (mins.mul (JSNum.num 60)).add secs

/-- Duration: `const duration = Math.max(end - start, 1);`. -/
def durationOf (s e : JSNum) : JSNum :=
  (e.sub s).jmax (JSNum.num 1)

/-- Pre-check estimate: `const estimatedTokens = Math.ceil(duration * 10);`. -/
def preEstimate (d : JSNum) : JSNum :=
  (d.mul (JSNum.num 10)).ceil

/-- Post-check estimate `Math.ceil(data.text.split(" ").length / 0.75)` (token
estimate from the transcript).  `0.75` is exactly `3/4`, so the quotient
is exactly `4·length / 3`, and its ceiling is computed by integer floor
division: `⌈a/3⌉ = -( (-a).fdiv 3 )`.  `postEstimate_eq_ceil` below
proves this equal to the rational ceiling `⌈length / (3/4)⌉`. -/
def postEstimate (text : String) : ℤ :=
  -((-(4 * ((splitOnChar ' ' text.data).length : ℤ))).fdiv 3)

/-- Timestamp body field `req.body.startTime || "0:00"`: `undefined` and the empty string are
falsy and default to `"0:00"`. -/
def bodyField (v : Option String) : String :=
  match v with
  | some s => if s = "" then "0:00" else s
  | none => "0:00"

/-- Bearer-token extraction:
`authHeader?.startsWith("Bearer ") ? authHeader.slice(7) : null`. -/
def tokenOf (authHeader : Option String) : Option String :=
  match authHeader with
  | some h =>
    if leadsWith "Bearer ".data h.data then some ⟨h.data.drop 7⟩ else none
  | none => none

/-- JS truthiness of the extracted token (`!authToken` guard): `null` and
the empty string are falsy. -/
def tokenTruthy : Option String → Bool
  | some s => s ≠ ""
  | none => false

/-- The inbound request as the handler sees it: `Authorization` header,
the two optional timestamp body fields, and the multer upload (its
generated filename), if any. -/
structure Request where
  authHeader : Option String
  startTime : Option String
  endTime : Option String
  file : Option String
deriving DecidableEq, Repr

/-- Outcome of an awaited external call: the promise either rejects
(throwing into the top-level `catch`) or resolves with a value. -/
inductive FetchOutcome (α : Type) where
  | rejected : FetchOutcome α
  | resolved : α → FetchOutcome α
deriving DecidableEq, Repr

/-- What `JSON.parse` of the upstream Whisper body yields, restricted to
the shape the handler inspects (`data && data.text`): an object carrying
a string `text` field, a falsy value such as `null`, or any other truthy
value without a truthy `text` field. -/
inductive UpstreamJson where
  | objWithText : String → UpstreamJson
  | falsy : UpstreamJson
  | otherTruthy : UpstreamJson
deriving DecidableEq, Repr

/-- The raw upstream response body: either not parseable as JSON (with
the raw text kept for the log only) or parseable to an `UpstreamJson`. -/
inductive UpstreamBody where
  | notJson : String → UpstreamBody
  | json : UpstreamJson → UpstreamBody
deriving DecidableEq, Repr

/-- Success gate `data && data.text`: both must be truthy. -/
def textTruthy : UpstreamJson → Bool
  | .objWithText t => t ≠ ""
  | _ => false

/-- Outcomes of the external world for one request.
`usageFetch`: the quota read; `rejected` also covers a body that fails
`usageResponse.json()`; the resolved value is `usageData?.data?.getUsageCount`
(`none` when the field is absent, defaulted to `0` by `?? 0`).
`conversionOk` / `sliceOk`: whether each ffmpeg promise resolves.
`upstream`: the transcription upload (`resolved` carries the body text's
parse outcome).
`incrementFetch`: the awaited `incrementUsage` mutation; its resolved
value is whether the ledger accepted it, which the handler never reads. -/
structure Env where
  usageFetch : FetchOutcome (Option ℤ)
  conversionOk : Bool
  sliceOk : Bool
  upstream : FetchOutcome UpstreamBody
  incrementFetch : FetchOutcome Bool
deriving DecidableEq, Repr

/-- Externally visible actions of the handler, in program order.
`upstreamCall b` records whether the sliced artifact was the one
uploaded (`fs.existsSync(slicedPath)`; artifact names are unique per
request, so the sliced file exists exactly when the slice step ran and
completed). -/
inductive Event where
  | ledgerRead
  | convertCall
  | sliceCall
  | upstreamCall (usedSliced : Bool)
  | debugCopy
  | unlinkOriginal
  | unlinkConverted
  | unlinkSliced
  | ledgerIncrement (amount : ℤ)
deriving DecidableEq, Repr

/-- JSON response bodies the handler can produce, by shape: a bare
`{ error }`, the quota body `{ error, code }`, the empty-result body
`{ error, details }` echoing the parsed upstream value, and the success
body `{ transcript, estimatedTokens }`. -/
inductive RespBody where
  | errMsg : String → RespBody
  | errWithCode : String → String → RespBody
  | errWithDetails : String → UpstreamJson → RespBody
  | success : String → ℤ → RespBody
deriving DecidableEq, Repr

/-- An HTTP response: status code and JSON body. -/
structure Response where
  status : ℕ
  body : RespBody
deriving DecidableEq, Repr

/-- The pre-check estimate the handler computes for a request: both
timestamp fields defaulted, parsed by `timeToSeconds`, turned into
`Math.ceil(Math.max(end - start, 1) * 10)`. -/
def preEstimateOf (req : Request) : JSNum :=
  preEstimate (durationOf (timeToSeconds (bodyField req.startTime))
    (timeToSeconds (bodyField req.endTime)))

/-- The quota gate condition
`currentUsage + estimatedTokens > 8000` (a JS `>` — false on `NaN`),
with `currentUsage = usageData?.data?.getUsageCount ?? 0`. -/
def quotaBlocked (req : Request) (usageField : Option ℤ) : Bool :=
  (JSNum.num 8000).lt ((JSNum.num (usageField.getD 0)).add (preEstimateOf req))

/-- The slicing guard `!isNaN(start) && !isNaN(end) && end > start`. -/
def sliceGuard (req : Request) : Bool :=
  let s := timeToSeconds (bodyField req.startTime)
  let e := timeToSeconds (bodyField req.endTime)
  !s.isNaN && !e.isNaN && s.lt e

/-- The tail of the handler from the upstream upload on (shared by the
sliced and unsliced paths): upload, read and parse the body, then — only
when parsing succeeded — archive, unlink, and finish on the
success/empty-result split (`if (data && data.text)`), with the
increment mutation awaited before the success response is sent. -/
def handlerUpload (env : Env) (pre : List Event)
    (usedSliced : Bool) : Response × List Event :=
  match env.upstream with
  | .rejected =>
    (⟨500, .errMsg "Internal server error."⟩, pre ++ [.upstreamCall usedSliced])
  | .resolved (.notJson _raw) =>
    (⟨500, .errMsg "Could not parse Whisper response."⟩,
      pre ++ [.upstreamCall usedSliced])
  | .resolved (.json data) =>
    let evs := pre ++ [.upstreamCall usedSliced,
      .debugCopy, .unlinkOriginal, .unlinkConverted, .unlinkSliced]
    match data with
    | .objWithText t =>
      if t = "" then
        (⟨500, .errWithDetails "Whisper API failed" data⟩, evs)
      else
        let amount := postEstimate t
        match env.incrementFetch with
        | .rejected =>
          (⟨500, .errMsg "Internal server error."⟩, evs ++ [.ledgerIncrement amount])
        | .resolved _ =>
          (⟨200, .success t amount⟩, evs ++ [.ledgerIncrement amount])
    | _ =>
      (⟨500, .errWithDetails "Whisper API failed" data⟩, evs)

/-- The `POST /transcribe` handler, returning the HTTP response and the
ordered trace of external actions.  Each branch mirrors the source:
auth guard → timestamp parsing → ledger read → quota gate → file check →
conversion → guarded slicing → upstream upload → body parse → archival
copy and unlinks → success/empty-result split → awaited increment. -/
def handler (req : Request) (env : Env) : Response × List Event :=
  if ¬ tokenTruthy (tokenOf req.authHeader) then
    (⟨401, .errMsg "Unauthorized"⟩, [])
  else
    match env.usageFetch with
    | .rejected => (⟨500, .errMsg "Internal server error."⟩, [.ledgerRead])
    | .resolved usageField =>
      if quotaBlocked req usageField then
        (⟨403, .errWithCode "Usage limit exceeded." "USAGE_LIMIT_REACHED"⟩, [.ledgerRead])
      else
        match req.file with
        | none => (⟨400, .errMsg "No audio file uploaded."⟩, [.ledgerRead])
        | some _ =>
          if ¬ env.conversionOk then
            (⟨500, .errMsg "Internal server error."⟩, [.ledgerRead, .convertCall])
          else
            if sliceGuard req then
              if ¬ env.sliceOk then
                (⟨500, .errMsg "Internal server error."⟩,
                  [.ledgerRead, .convertCall, .sliceCall])
              else
                handlerUpload env [.ledgerRead, .convertCall, .sliceCall] true
            else
              handlerUpload env [.ledgerRead, .convertCall] false

/-- Those stages of the handler that precede the upstream upload all
succeed: truthy token, resolved quota read, quota not exceeded, file
present, conversion resolved, and — when the slicing guard holds — the
slice resolved. -/
def reachesUpload (req : Request) (env : Env) : Bool :=
  tokenTruthy (tokenOf req.authHeader) &&
  (match env.usageFetch with
   | .rejected => false
   | .resolved usageField => !quotaBlocked req usageField) &&
  req.file.isSome &&
  env.conversionOk &&
  (!sliceGuard req || env.sliceOk)

/-- The event trace accumulated before the upstream upload. -/
def stageEvents (req : Request) : List Event :=
  if sliceGuard req then [.ledgerRead, .convertCall, .sliceCall]
  else [.ledgerRead, .convertCall]

/-- The increment mutations appearing in a trace. -/
def incrementEvents (l : List Event) : List Event :=
  l.filter fun ev =>
    match ev with
    | .ledgerIncrement _ => true
    | _ => false

/-! ### Helper lemmas about the handler's control flow -/

lemma handler_reaches_upload (req : Request) (env : Env)
    (h : reachesUpload req env = true) :
    handler req env = handlerUpload env (stageEvents req) (sliceGuard req) := by
  rcases env with ⟨uf, cOk, sOk, up, inc⟩
  cases uf with
  | rejected => simp [reachesUpload] at h
  | resolved u =>
    simp only [reachesUpload, Bool.and_eq_true, Bool.not_eq_true', Bool.or_eq_true,
      Bool.not_eq_true, Option.isSome_iff_exists] at h
    obtain ⟨⟨⟨⟨htok, hq⟩, f, hf⟩, hc⟩, hs⟩ := h
    by_cases hg : sliceGuard req = true
    · have hsOk : sOk = true := by
        rcases hs with hs | hs
        · rw [hg] at hs; exact absurd hs (by simp)
        · exact hs
      simp [handler, stageEvents, htok, hq, hf, hc, hg, hsOk]
    · simp only [Bool.not_eq_true] at hg
      simp [handler, stageEvents, htok, hq, hf, hc, hg]

lemma handlerUpload_trace (env : Env) (pre : List Event) (g : Bool) :
    ∃ tail, (handlerUpload env pre g).2 = pre ++ Event.upstreamCall g :: tail ∧
      Event.sliceCall ∉ tail ∧ (∀ b, Event.upstreamCall b ∉ tail) ∧
      Event.convertCall ∉ tail := by
  rcases env with ⟨uf, cOk, sOk, up, inc⟩
  cases up with
  | rejected => exact ⟨[], by simp [handlerUpload]⟩
  | resolved body =>
    cases body with
    | notJson raw => exact ⟨[], by simp [handlerUpload]⟩
    | json data =>
      cases data with
      | objWithText t =>
        by_cases ht : t = ""
        · refine ⟨[.debugCopy, .unlinkOriginal, .unlinkConverted, .unlinkSliced], ?_⟩
          simp [handlerUpload, ht]
        · cases inc with
          | rejected =>
            refine ⟨[.debugCopy, .unlinkOriginal, .unlinkConverted, .unlinkSliced,
              .ledgerIncrement (postEstimate t)], ?_⟩
            simp [handlerUpload, ht]
          | resolved b =>
            refine ⟨[.debugCopy, .unlinkOriginal, .unlinkConverted, .unlinkSliced,
              .ledgerIncrement (postEstimate t)], ?_⟩
            simp [handlerUpload, ht]
      | falsy =>
        refine ⟨[.debugCopy, .unlinkOriginal, .unlinkConverted, .unlinkSliced], ?_⟩
        simp [handlerUpload]
      | otherTruthy =>
        refine ⟨[.debugCopy, .unlinkOriginal, .unlinkConverted, .unlinkSliced], ?_⟩
        simp [handlerUpload]

lemma handlerUpload_success (env : Env) (pre : List Event) (g : Bool)
    (t : String) (b : Bool) (ht : t ≠ "")
    (hup : env.upstream = .resolved (.json (.objWithText t)))
    (hinc : env.incrementFetch = .resolved b) :
    handlerUpload env pre g = (⟨200, .success t (postEstimate t)⟩,
      pre ++ [.upstreamCall g, .debugCopy, .unlinkOriginal, .unlinkConverted,
        .unlinkSliced, .ledgerIncrement (postEstimate t)]) := by
  unfold handlerUpload
  rw [hup, hinc]
  simp [ht]

lemma handlerUpload_incrRejected (env : Env) (pre : List Event) (g : Bool)
    (t : String) (ht : t ≠ "")
    (hup : env.upstream = .resolved (.json (.objWithText t)))
    (hinc : env.incrementFetch = .rejected) :
    handlerUpload env pre g = (⟨500, .errMsg "Internal server error."⟩,
      pre ++ [.upstreamCall g, .debugCopy, .unlinkOriginal, .unlinkConverted,
        .unlinkSliced, .ledgerIncrement (postEstimate t)]) := by
  unfold handlerUpload
  rw [hup, hinc]
  simp [ht]

lemma handlerUpload_notJson (env : Env) (pre : List Event) (g : Bool)
    (raw : String) (hup : env.upstream = .resolved (.notJson raw)) :
    handlerUpload env pre g = (⟨500, .errMsg "Could not parse Whisper response."⟩,
      pre ++ [.upstreamCall g]) := by
  unfold handlerUpload
  rw [hup]

lemma handler_trace_cases (req : Request) (env : Env) :
    (handler req env).2 = [] ∨
    (handler req env).2 = [.ledgerRead] ∨
    (handler req env).2 = [.ledgerRead, .convertCall] ∨
    (sliceGuard req = true ∧
      (handler req env).2 = [.ledgerRead, .convertCall, .sliceCall]) ∨
    (reachesUpload req env = true ∧
      handler req env = handlerUpload env (stageEvents req) (sliceGuard req)) := by
  by_cases htok : tokenTruthy (tokenOf req.authHeader) = true
  case neg => left; simp [handler, htok]
  case pos =>
    rcases env with ⟨uf, cOk, sOk, up, inc⟩
    cases uf with
    | rejected => right; left; simp [handler, htok]
    | resolved u =>
      by_cases hq : quotaBlocked req u = true
      · right; left; simp [handler, htok, hq]
      · simp only [Bool.not_eq_true] at hq
        cases hf : req.file with
        | none => right; left; simp [handler, htok, hq, hf]
        | some f =>
          cases cOk with
          | false => right; right; left; simp [handler, htok, hq, hf]
          | true =>
            by_cases hg : sliceGuard req = true
            · cases sOk with
              | false =>
                right; right; right; left
                exact ⟨hg, by simp [handler, htok, hq, hf, hg]⟩
              | true =>
                right; right; right; right
                have hr : reachesUpload req ⟨.resolved u, true, true, up, inc⟩ = true := by
                  simp [reachesUpload, htok, hq, hf, hg]
                exact ⟨hr, handler_reaches_upload req _ hr⟩
            · simp only [Bool.not_eq_true] at hg
              right; right; right; right
              have hr : reachesUpload req ⟨.resolved u, true, sOk, up, inc⟩ = true := by
                simp [reachesUpload, htok, hq, hf, hg]
              exact ⟨hr, handler_reaches_upload req _ hr⟩

lemma upstreamCall_mem_guard (req : Request) (env : Env) (b : Bool)
    (h : Event.upstreamCall b ∈ (handler req env).2) :
    b = sliceGuard req ∧ reachesUpload req env = true := by
  rcases handler_trace_cases req env with h1 | h1 | h1 | ⟨_, h1⟩ | ⟨hr, h1⟩
  · rw [h1] at h; simp at h
  · rw [h1] at h; simp at h
  · rw [h1] at h; simp at h
  · rw [h1] at h; simp at h
  · obtain ⟨tail, ht, _, hnb, _⟩ := handlerUpload_trace env (stageEvents req) (sliceGuard req)
    rw [h1, ht] at h
    refine ⟨?_, hr⟩
    rcases List.mem_append.mp h with h | h
    · unfold stageEvents at h
      by_cases hg : sliceGuard req = true
      · rw [if_pos hg] at h; simp at h
      · rw [if_neg hg] at h; simp at h
    · rcases List.mem_cons.mp h with h | h
      · exact Event.upstreamCall.inj h
      · exact absurd h (hnb b)

lemma sliceCall_mem_iff_guard (req : Request) (env : Env)
    (hr : reachesUpload req env = true) :
    Event.sliceCall ∈ (handler req env).2 ↔ sliceGuard req = true := by
  rw [handler_reaches_upload req env hr]
  obtain ⟨tail, ht, hns, _, _⟩ := handlerUpload_trace env (stageEvents req) (sliceGuard req)
  rw [ht]
  constructor
  · intro h
    rcases List.mem_append.mp h with h | h
    · unfold stageEvents at h
      by_cases hg : sliceGuard req = true
      · exact hg
      · rw [if_neg hg] at h; simp at h
    · rcases List.mem_cons.mp h with h | h
      · simp at h
      · exact absurd h hns
  · intro hg
    apply List.mem_append.mpr
    left
    unfold stageEvents
    rw [if_pos hg]
    simp

lemma handlerUpload_ignores_flags (uf uf' : FetchOutcome (Option ℤ))
    (c c' s s' : Bool) (up : FetchOutcome UpstreamBody) (inc : FetchOutcome Bool)
    (pre : List Event) (g : Bool) :
    handlerUpload ⟨uf, c, s, up, inc⟩ pre g =
      handlerUpload ⟨uf', c', s', up, inc⟩ pre g := rfl

lemma handler_sliceOk_irrel (req : Request) (env : Env) (b : Bool)
    (hg : sliceGuard req = false) :
    handler req { env with sliceOk := b } = handler req env := by
  rcases env with ⟨uf, cOk, sOk, up, inc⟩
  by_cases htok : tokenTruthy (tokenOf req.authHeader) = true
  · cases uf with
    | rejected => rfl
    | resolved u =>
      by_cases hq : quotaBlocked req u = true
      · simp [handler, htok, hq]
      · simp only [Bool.not_eq_true] at hq
        cases hf : req.file with
        | none => simp [handler, htok, hq, hf]
        | some f =>
          cases cOk with
          | false => simp [handler, htok, hq, hf]
          | true =>
            simp only [handler, htok, hq, hf, hg]
            exact handlerUpload_ignores_flags (.resolved u) (.resolved u)
              true true b sOk up inc [Event.ledgerRead, Event.convertCall] false
  · simp [handler, htok]

/-- Ceiling `⌈m/3⌉` as computed by integer floor division. -/
lemma ceil_div_three (m : ℤ) : -((-m).fdiv 3) = ⌈(m : ℚ) / 3⌉ := by
  rw [Int.fdiv_eq_ediv _ (by norm_num)]
  have h3 : ((3 : ℕ) : ℚ) = (3 : ℚ) := by norm_num
  have hfl := Rat.floor_intCast_div_natCast (-m) 3
  rw [h3] at hfl
  have hneg : (((-m : ℤ) : ℚ)) / 3 = -((m : ℚ) / 3) := by push_cast; ring
  rw [hneg] at hfl
  rw [Int.floor_neg] at hfl
  omega

/-- The integer-division form of the post-check estimate agrees with the
mathematical `⌈wordCount / 0.75⌉`. -/
lemma postEstimate_eq_ceil (text : String) :
    postEstimate text = ⌈(((splitOnChar ' ' text.data).length : ℚ)) / (3 / 4)⌉ := by
  unfold postEstimate
  rw [ceil_div_three]
  congr 1
  push_cast
  ring

/-! ### Claim theorems -/

/-- C1: for a request with a truthy bearer token whose ledger read
resolves, if `currentUsage + ceil(duration*10) > 8000` the handler
answers 403 with body `{ error: "Usage limit exceeded.", code:
"USAGE_LIMIT_REACHED" }` and its entire external trace is the single
ledger read — so the rejection precedes the file-presence check and any
transcoder or upstream call, and holds also when `req.file` is `none`. -/
theorem C1_quota_gate_rejects_early (req : Request) (env : Env) (u : Option ℤ)
    (htok : tokenTruthy (tokenOf req.authHeader) = true)
    (hu : env.usageFetch = .resolved u)
    (hq : quotaBlocked req u = true) :
    handler req env =
      (⟨403, .errWithCode "Usage limit exceeded." "USAGE_LIMIT_REACHED"⟩,
        [.ledgerRead]) := by
  simp [handler, htok, hu, hq]

/-- C1 witness: `currentUsage = 7800`, window `0:10`–`0:40` (estimate
`300`, `8100 > 8000`), no file attached. -/
theorem C1_quota_gate_rejects_early_witness :
    handler ⟨some "Bearer tok", some "0:10", some "0:40", none⟩
      ⟨.resolved (some 7800), true, true,
        .resolved (.json (.objWithText "hi")), .resolved true⟩ =
      (⟨403, .errWithCode "Usage limit exceeded." "USAGE_LIMIT_REACHED"⟩,
        [.ledgerRead]) :=
  C1_quota_gate_rejects_early _ _ (some 7800) (by decide) rfl (by decide)

/-- C7: when the upstream body is not JSON, the handler answers 500 with
`"Could not parse Whisper response."`, issues no usage increment, and
returns the identical response whatever the raw body was (the raw text
is never part of the response). -/
theorem C7_parse_failure_500_no_increment (req : Request) (env : Env)
    (raw : String) (h : reachesUpload req env = true)
    (hup : env.upstream = .resolved (.notJson raw)) :
    handler req env =
      (⟨500, .errMsg "Could not parse Whisper response."⟩,
        stageEvents req ++ [.upstreamCall (sliceGuard req)]) ∧
    incrementEvents (handler req env).2 = [] ∧
    (∀ raw', handler req { env with upstream := .resolved (.notJson raw') } =
      handler req env) := by
  have hh := handler_reaches_upload req env h
  have hv := handlerUpload_notJson env (stageEvents req) (sliceGuard req) raw hup
  refine ⟨hh.trans hv, ?_, ?_⟩
  · rw [hh, hv]
    unfold stageEvents incrementEvents
    by_cases hg : sliceGuard req = true <;> simp [hg, List.filter]
  · intro raw'
    have h' : reachesUpload req { env with upstream := .resolved (.notJson raw') } = true := h
    have hh' := handler_reaches_upload req _ h'
    have hv' := handlerUpload_notJson { env with upstream := .resolved (.notJson raw') }
      (stageEvents req) (sliceGuard req) raw' rfl
    rw [hh', hv', hh, hv]

lemma preEstimateOf_isNaN (req : Request)
    (h : (timeToSeconds (bodyField req.startTime)).isNaN = true ∨
      (timeToSeconds (bodyField req.endTime)).isNaN = true) :
    preEstimateOf req = JSNum.nan := by
  unfold preEstimateOf preEstimate durationOf
  rcases h with h | h
  · cases hs : timeToSeconds (bodyField req.startTime) with
    | nan => cases timeToSeconds (bodyField req.endTime) <;> rfl
    | num z => rw [hs] at h; simp [JSNum.isNaN] at h
  · cases he : timeToSeconds (bodyField req.endTime) with
    | nan => cases timeToSeconds (bodyField req.startTime) <;> rfl
    | num z => rw [he] at h; simp [JSNum.isNaN] at h

lemma handlerUpload_no_quota_body (env : Env) (pre : List Event) (g : Bool)
    (a b : String) :
    (handlerUpload env pre g).1.body ≠ RespBody.errWithCode a b := by
  unfold handlerUpload
  rcases env with ⟨uf, cOk, sOk, up, inc⟩
  cases up with
  | rejected => simp
  | resolved body =>
    cases body with
    | notJson raw => simp
    | json data =>
      cases data with
      | objWithText t => by_cases ht : t = "" <;> cases inc <;> simp [ht]
      | falsy => simp
      | otherTruthy => simp

/-- C8 (implicit): when either timestamp parses to `NaN`, the pre-check
estimate is `NaN`, the JS comparison `currentUsage + estimatedTokens >
8000` is `false`, and the quota 403 (the only `{ error, code }` response)
is unreachable — the request passes the gate regardless of the ledger's
`currentUsage`. -/
theorem C8_nan_estimate_never_blocked (req : Request) (env : Env) (u : Option ℤ)
    (htok : tokenTruthy (tokenOf req.authHeader) = true)
    (hu : env.usageFetch = .resolved u)
    (hnan : (timeToSeconds (bodyField req.startTime)).isNaN = true ∨
      (timeToSeconds (bodyField req.endTime)).isNaN = true) :
    preEstimateOf req = JSNum.nan ∧
    quotaBlocked req u = false ∧
    ∀ a b, (handler req env).1.body ≠ RespBody.errWithCode a b := by
  have hest := preEstimateOf_isNaN req hnan
  have hq : quotaBlocked req u = false := by
    unfold quotaBlocked
    rw [hest]
    rfl
  refine ⟨hest, hq, ?_⟩
  intro a b
  rcases env with ⟨uf, cOk, sOk, up, inc⟩
  cases uf with
  | rejected => cases hu
  | resolved u' =>
    cases hu
    cases hf : req.file with
    | none => simp [handler, htok, hq, hf]
    | some f =>
      cases cOk with
      | false => simp [handler, htok, hq, hf]
      | true =>
        by_cases hg : sliceGuard req = true
        · cases sOk with
          | false => simp [handler, htok, hq, hf, hg]
          | true =>
            simpa [handler, htok, hq, hf, hg] using
              handlerUpload_no_quota_body ⟨.resolved u, true, true, up, inc⟩
                [.ledgerRead, .convertCall, .sliceCall] true a b
        · simp only [Bool.not_eq_true] at hg
          simpa [handler, htok, hq, hf, hg] using
            handlerUpload_no_quota_body ⟨.resolved u, true, false, up, inc⟩
              [.ledgerRead, .convertCall] false a b

/-- C8 witness: `startTime = "abc"` parses to `NaN`; with
`currentUsage = 999999` the gate still passes and the request proceeds to
the file check. -/
theorem C8_nan_estimate_never_blocked_witness :
    quotaBlocked ⟨some "Bearer t", some "abc", some "0:40", some "f"⟩
      (some 999999) = false :=
  (C8_nan_estimate_never_blocked ⟨some "Bearer t", some "abc", some "0:40", some "f"⟩
    ⟨.resolved (some 999999), true, true, .resolved (.notJson "x"), .resolved true⟩
    (some 999999) (by decide) rfl (Or.inl (by decide))).2.1

/-- C10 (implicit): after auth, quota and file checks pass, a rejected
conversion ends the request as 500 `"Internal server error."` with trace
`[ledger read, convert]`, and a rejected slice (guard held) ends it with
trace `[ledger read, convert, slice]`; in either case no archival copy
and no deletion happens, so the raw upload — and after a slice failure
the converted mp3 as well — is left on disk. -/
theorem C10_transcoder_failure_leaves_files (req : Request) (env : Env)
    (u : Option ℤ) (f : String)
    (htok : tokenTruthy (tokenOf req.authHeader) = true)
    (hu : env.usageFetch = .resolved u)
    (hq : quotaBlocked req u = false)
    (hf : req.file = some f) :
    (env.conversionOk = false →
      handler req env = (⟨500, .errMsg "Internal server error."⟩,
        [.ledgerRead, .convertCall])) ∧
    (env.conversionOk = true → sliceGuard req = true → env.sliceOk = false →
      handler req env = (⟨500, .errMsg "Internal server error."⟩,
        [.ledgerRead, .convertCall, .sliceCall])) ∧
    ((env.conversionOk = false ∨
        (sliceGuard req = true ∧ env.sliceOk = false)) →
      Event.debugCopy ∉ (handler req env).2 ∧
      Event.unlinkOriginal ∉ (handler req env).2 ∧
      Event.unlinkConverted ∉ (handler req env).2 ∧
      Event.unlinkSliced ∉ (handler req env).2) := by
  have hconv : env.conversionOk = false →
      handler req env = (⟨500, .errMsg "Internal server error."⟩,
        [.ledgerRead, .convertCall]) := by
    intro hc
    simp [handler, htok, hu, hq, hf, hc]
  have hslice : env.conversionOk = true → sliceGuard req = true →
      env.sliceOk = false →
      handler req env = (⟨500, .errMsg "Internal server error."⟩,
        [.ledgerRead, .convertCall, .sliceCall]) := by
    intro hc hg hs
    simp [handler, htok, hu, hq, hf, hc, hg, hs]
  refine ⟨hconv, hslice, ?_⟩
  rintro (hc | ⟨hg, hs⟩)
  · rw [hconv hc]; decide
  · cases hc : env.conversionOk with
    | false => rw [hconv hc]; decide
    | true => rw [hslice hc hg hs]; decide

/-- C5: with an invalid slice window — either parsed timestamp `NaN`, or
`end ≤ start` (the JS `end > start` comparison false) — the trim step is
never invoked, the outcome is independent of whether a slice would have
succeeded (no `SliceFailure` possible), and any upstream upload uses the
full converted mp3 (`usedSliced = false`); in general, for every request
the sliced artifact is uploaded iff the trim step actually ran and
completed. -/
theorem C5_invalid_window_skips_slice (req : Request) (env : Env)
    (hinv : (timeToSeconds (bodyField req.startTime)).isNaN = true ∨
      (timeToSeconds (bodyField req.endTime)).isNaN = true ∨
      (timeToSeconds (bodyField req.startTime)).lt
        (timeToSeconds (bodyField req.endTime)) = false) :
    Event.sliceCall ∉ (handler req env).2 ∧
    (∀ b, handler req { env with sliceOk := b } = handler req env) ∧
    (∀ b, Event.upstreamCall b ∈ (handler req env).2 → b = false) ∧
    (∀ req' env' b, Event.upstreamCall b ∈ (handler req' env').2 →
      (b = true ↔ Event.sliceCall ∈ (handler req' env').2)) := by
  have hg : sliceGuard req = false := by
    unfold sliceGuard
    rcases hinv with h | h | h <;> simp [h]
  refine ⟨?_, fun b => handler_sliceOk_irrel req env b hg, ?_, ?_⟩
  · rcases handler_trace_cases req env with hc | hc | hc | ⟨hg', _⟩ | ⟨hr, _⟩
    · rw [hc]; simp
    · rw [hc]; simp
    · rw [hc]; simp
    · rw [hg] at hg'; cases hg'
    · intro hmem
      have := (sliceCall_mem_iff_guard req env hr).mp hmem
      rw [hg] at this
      cases this
  · intro b hmem
    have := (upstreamCall_mem_guard req env b hmem).1
    rw [hg] at this
    exact this
  · intro req' env' b hmem
    obtain ⟨hb, hr⟩ := upstreamCall_mem_guard req' env' b hmem
    rw [sliceCall_mem_iff_guard req' env' hr, hb]

/-- C5 witness: `start = "0:40"`, `end = "0:10"` (`end ≤ start`): no slice
call occurs. -/
theorem C5_invalid_window_skips_slice_witness :
    Event.sliceCall ∉
      (handler ⟨some "Bearer t", some "0:40", some "0:10", some "f"⟩
        ⟨.resolved (some 0), true, true,
          .resolved (.json (.objWithText "hi")), .resolved true⟩).2 :=
  (C5_invalid_window_skips_slice _ _ (Or.inr (Or.inr (by decide)))).1

/-- C10 witness: a rejected conversion with valid auth, quota headroom
and a file leaves the trace at `[ledger read, convert]`. -/
theorem C10_transcoder_failure_leaves_files_witness :
    handler ⟨some "Bearer t", none, none, some "f"⟩
      ⟨.resolved (some 0), false, true, .resolved (.notJson "x"), .resolved true⟩ =
      (⟨500, .errMsg "Internal server error."⟩, [.ledgerRead, .convertCall]) :=
  (C10_transcoder_failure_leaves_files _ _ (some 0) "f"
    (by decide) rfl (by decide) rfl).1 rfl

lemma handlerUpload_incr_resolved (uf : FetchOutcome (Option ℤ)) (c s : Bool)
    (up : FetchOutcome UpstreamBody) (a b : Bool) (pre : List Event) (g : Bool) :
    handlerUpload ⟨uf, c, s, up, .resolved a⟩ pre g =
      handlerUpload ⟨uf, c, s, up, .resolved b⟩ pre g := by
  unfold handlerUpload
  cases up with
  | rejected => rfl
  | resolved body =>
    cases body with
    | notJson raw => rfl
    | json data =>
      cases data with
      | objWithText t => by_cases ht : t = "" <;> simp [ht]
      | falsy => rfl
      | otherTruthy => rfl

/-- C2 counterexample: the claim promises a 200 response on every request
whose upstream response parses with non-empty `text`, but the increment
fetch is awaited — when it rejects, the top-level catch answers 500. -/
theorem C2_counterexample_rejected_increment :
    (handler ⟨some "Bearer t", none, none, some "f"⟩
      ⟨.resolved (some 0), true, true,
        .resolved (.json (.objWithText "hello world")), .rejected⟩).1 =
      ⟨500, .errMsg "Internal server error."⟩ := by decide

/-- C2 (amended): on the success path (non-empty parsed `text`), if the
increment fetch resolves the handler answers 200 with
`{ transcript: t, estimatedTokens: ceil(wordCount/0.75) }`; if it
rejects, the handler answers 500 `"Internal server error."`; in both
cases exactly one increment mutation carrying the post-check estimate is
issued, and that estimate is `⌈wordCount / 0.75⌉` for the `split(" ")`
word count. -/
theorem C2_success_response_and_increment (req : Request) (env : Env)
    (t : String) (hr : reachesUpload req env = true)
    (hup : env.upstream = .resolved (.json (.objWithText t)))
    (ht : t ≠ "") :
    (∀ b, env.incrementFetch = .resolved b →
      handler req env = (⟨200, .success t (postEstimate t)⟩,
        stageEvents req ++ [.upstreamCall (sliceGuard req), .debugCopy,
          .unlinkOriginal, .unlinkConverted, .unlinkSliced,
          .ledgerIncrement (postEstimate t)])) ∧
    (env.incrementFetch = .rejected →
      handler req env = (⟨500, .errMsg "Internal server error."⟩,
        stageEvents req ++ [.upstreamCall (sliceGuard req), .debugCopy,
          .unlinkOriginal, .unlinkConverted, .unlinkSliced,
          .ledgerIncrement (postEstimate t)])) ∧
    incrementEvents (handler req env).2 = [.ledgerIncrement (postEstimate t)] ∧
    postEstimate t = ⌈(((splitOnChar ' ' t.data).length : ℚ)) / (3 / 4)⌉ := by
  have hh := handler_reaches_upload req env hr
  have h200 : ∀ b, env.incrementFetch = .resolved b →
      handler req env = (⟨200, .success t (postEstimate t)⟩,
        stageEvents req ++ [.upstreamCall (sliceGuard req), .debugCopy,
          .unlinkOriginal, .unlinkConverted, .unlinkSliced,
          .ledgerIncrement (postEstimate t)]) := by
    intro b hinc
    exact hh.trans (handlerUpload_success env _ _ t b ht hup hinc)
  have h500 : env.incrementFetch = .rejected →
      handler req env = (⟨500, .errMsg "Internal server error."⟩,
        stageEvents req ++ [.upstreamCall (sliceGuard req), .debugCopy,
          .unlinkOriginal, .unlinkConverted, .unlinkSliced,
          .ledgerIncrement (postEstimate t)]) := by
    intro hinc
    exact hh.trans (handlerUpload_incrRejected env _ _ t ht hup hinc)
  refine ⟨h200, h500, ?_, postEstimate_eq_ceil t⟩
  have htr : (handler req env).2 =
      stageEvents req ++ [.upstreamCall (sliceGuard req), .debugCopy,
        .unlinkOriginal, .unlinkConverted, .unlinkSliced,
        .ledgerIncrement (postEstimate t)] := by
    cases hinc : env.incrementFetch with
    | rejected => rw [h500 hinc]
    | resolved b => rw [h200 b hinc]
  rw [htr]
  unfold incrementEvents stageEvents
  by_cases hg : sliceGuard req = true <;> simp [hg, List.filter]

/-- C2 witness: transcript `"hello world"` (2 `split(" ")` segments,
`⌈2/0.75⌉ = 3`) with a resolving increment call. -/
theorem C2_success_response_and_increment_witness :
    postEstimate "hello world" = 3 ∧
    handler ⟨some "Bearer t", none, none, some "f"⟩
      ⟨.resolved (some 0), true, true,
        .resolved (.json (.objWithText "hello world")), .resolved true⟩ =
      (⟨200, .success "hello world" (postEstimate "hello world")⟩,
        stageEvents ⟨some "Bearer t", none, none, some "f"⟩ ++
          [.upstreamCall (sliceGuard ⟨some "Bearer t", none, none, some "f"⟩),
            .debugCopy, .unlinkOriginal, .unlinkConverted, .unlinkSliced,
            .ledgerIncrement (postEstimate "hello world")]) :=
  ⟨by decide,
    (C2_success_response_and_increment _ _ "hello world" (by decide) rfl
      (by decide)).1 true rfl⟩

/-- C3 counterexample: on a success-path request, a resolving increment
call yields 200 while a rejecting one yields 500 — the caller-visible
response is not independent of the increment call's outcome. -/
theorem C3_counterexample_rejection_changes_response :
    (handler ⟨some "Bearer t", none, none, some "f"⟩
      ⟨.resolved (some 0), true, true,
        .resolved (.json (.objWithText "hello world")), .resolved true⟩).1 ≠
    (handler ⟨some "Bearer t", none, none, some "f"⟩
      ⟨.resolved (some 0), true, true,
        .resolved (.json (.objWithText "hello world")), .rejected⟩).1 := by decide

/-- C3 (amended): the handler never inspects the increment call's
resolved value, so the entire result — response and trace — is the same
for any two resolved outcomes (ledger accepted or not); but a rejected
increment fetch is thrown into the top-level catch, so resolution versus
rejection does change the response (see the counterexample). -/
theorem C3_response_ignores_increment_value (req : Request) (env : Env)
    (a b : Bool) :
    handler req { env with incrementFetch := .resolved a } =
      handler req { env with incrementFetch := .resolved b } := by
  rcases env with ⟨uf, cOk, sOk, up, inc⟩
  by_cases htok : tokenTruthy (tokenOf req.authHeader) = true
  · cases uf with
    | rejected => rfl
    | resolved u =>
      by_cases hq : quotaBlocked req u = true
      · simp [handler, htok, hq]
      · simp only [Bool.not_eq_true] at hq
        cases hf : req.file with
        | none => simp [handler, htok, hq, hf]
        | some f =>
          cases cOk with
          | false => simp [handler, htok, hq, hf]
          | true =>
            by_cases hg : sliceGuard req = true
            · cases sOk with
              | false => simp [handler, htok, hq, hf, hg]
              | true =>
                simp only [handler, htok, hq, hf, hg]
                exact handlerUpload_incr_resolved (.resolved u) true true up a b
                  [Event.ledgerRead, Event.convertCall, Event.sliceCall] true
            · simp only [Bool.not_eq_true] at hg
              simp only [handler, htok, hq, hf, hg]
              exact handlerUpload_incr_resolved (.resolved u) true sOk up a b
                [Event.ledgerRead, Event.convertCall] false
  · simp [handler, htok]

/-- C4 counterexample: on the JSON parse-failure path the handler
returns before the cleanup block, so — contrary to the claim — no
archival copy and no deletion is attempted there. -/
theorem C4_counterexample_parse_failure_skips_cleanup :
    (handler ⟨some "Bearer t", none, none, some "f"⟩
      ⟨.resolved (some 0), true, true, .resolved (.notJson "oops"),
        .resolved true⟩).2 =
      [.ledgerRead, .convertCall, .upstreamCall false] ∧
    Event.debugCopy ∉ (handler ⟨some "Bearer t", none, none, some "f"⟩
      ⟨.resolved (some 0), true, true, .resolved (.notJson "oops"),
        .resolved true⟩).2 ∧
    Event.unlinkOriginal ∉ (handler ⟨some "Bearer t", none, none, some "f"⟩
      ⟨.resolved (some 0), true, true, .resolved (.notJson "oops"),
        .resolved true⟩).2 := by decide

/-- C4 (amended): cleanup — the archival copy, then the three deletions,
in that order — is attempted exactly when the upstream body parses as
JSON (the success and empty-result paths); on the parse-failure path the
handler returns before the cleanup block, and on the earlier
auth/quota/no-file/conversion/slice aborts no cleanup is attempted
either.  The stage prefix contains no cleanup events, so in the parsed
case the copy precedes every deletion. -/
theorem C4_cleanup_on_parsed_paths_only (req : Request) (env : Env) :
    (reachesUpload req env = true →
      ∀ data, env.upstream = .resolved (.json data) →
        ∃ tail, (handler req env).2 =
            stageEvents req ++ Event.upstreamCall (sliceGuard req) ::
              Event.debugCopy :: Event.unlinkOriginal :: Event.unlinkConverted ::
              Event.unlinkSliced :: tail ∧
          (tail = [] ∨ ∃ z, tail = [Event.ledgerIncrement z])) ∧
    (reachesUpload req env = true →
      ∀ raw, env.upstream = .resolved (.notJson raw) →
        Event.debugCopy ∉ (handler req env).2 ∧
        Event.unlinkOriginal ∉ (handler req env).2 ∧
        Event.unlinkConverted ∉ (handler req env).2 ∧
        Event.unlinkSliced ∉ (handler req env).2) ∧
    (reachesUpload req env = false →
      Event.debugCopy ∉ (handler req env).2 ∧
      Event.unlinkOriginal ∉ (handler req env).2 ∧
      Event.unlinkConverted ∉ (handler req env).2 ∧
      Event.unlinkSliced ∉ (handler req env).2) ∧
    (∀ ev, ev ∈ stageEvents req →
      ev = Event.ledgerRead ∨ ev = Event.convertCall ∨ ev = Event.sliceCall) := by
  refine ⟨?_, ?_, ?_, ?_⟩
  · intro hr data hup
    rw [handler_reaches_upload req env hr]
    unfold handlerUpload
    rw [hup]
    cases data with
    | objWithText t =>
      by_cases ht : t = ""
      · exact ⟨[], by simp [ht], Or.inl rfl⟩
      · cases hinc : env.incrementFetch with
        | rejected =>
          exact ⟨[.ledgerIncrement (postEstimate t)], by simp [ht, hinc],
            Or.inr ⟨postEstimate t, rfl⟩⟩
        | resolved b =>
          exact ⟨[.ledgerIncrement (postEstimate t)], by simp [ht, hinc],
            Or.inr ⟨postEstimate t, rfl⟩⟩
    | falsy => exact ⟨[], by simp, Or.inl rfl⟩
    | otherTruthy => exact ⟨[], by simp, Or.inl rfl⟩
  · intro hr raw hup
    rw [handler_reaches_upload req env hr,
      handlerUpload_notJson env _ _ raw hup]
    unfold stageEvents
    by_cases hg : sliceGuard req = true <;> simp [hg]
  · intro hr
    rcases handler_trace_cases req env with hc | hc | hc | ⟨_, hc⟩ | ⟨hr', _⟩
    · rw [hc]; simp
    · rw [hc]; simp
    · rw [hc]; simp
    · rw [hc]; simp
    · rw [hr'] at hr; cases hr
  · intro ev hmem
    unfold stageEvents at hmem
    by_cases hg : sliceGuard req = true
    · rw [if_pos hg] at hmem
      simp only [List.mem_cons, List.not_mem_nil, or_false] at hmem
      rcases hmem with h | h | h
      · exact Or.inl h
      · exact Or.inr (Or.inl h)
      · exact Or.inr (Or.inr h)
    · rw [if_neg hg] at hmem
      simp only [List.mem_cons, List.not_mem_nil, or_false] at hmem
      rcases hmem with h | h
      · exact Or.inl h
      · exact Or.inr (Or.inl h)

/-- C4 witness: a success-path request; the cleanup block appears in
order after the upload, followed only by the increment. -/
theorem C4_cleanup_on_parsed_paths_only_witness :
    ∃ tail, (handler ⟨some "Bearer t", none, none, some "f"⟩
        ⟨.resolved (some 0), true, true,
          .resolved (.json (.objWithText "hello world")), .resolved true⟩).2 =
        stageEvents ⟨some "Bearer t", none, none, some "f"⟩ ++
          Event.upstreamCall (sliceGuard ⟨some "Bearer t", none, none, some "f"⟩) ::
          Event.debugCopy :: Event.unlinkOriginal :: Event.unlinkConverted ::
          Event.unlinkSliced :: tail ∧
      (tail = [] ∨ ∃ z, tail = [Event.ledgerIncrement z]) :=
  (C4_cleanup_on_parsed_paths_only _ _).1 (by decide)
    (.objWithText "hello world") rfl

lemma splitOnChar_no_sep (c : Char) (l : List Char) (h : ∀ x ∈ l, x ≠ c) :
    splitOnChar c l = [l] := by
  induction l with
  | nil => rfl
  | cons x xs ih =>
    have hx : x ≠ c := h x (List.mem_cons_self x xs)
    have ih' := ih (fun y hy => h y (List.mem_cons_of_mem x hy))
    simp [splitOnChar, hx, ih']

lemma splitOnChar_append (c : Char) (a b : List Char) (ha : ∀ x ∈ a, x ≠ c) :
    splitOnChar c (a ++ c :: b) = a :: splitOnChar c b := by
  induction a with
  | nil => simp [splitOnChar]
  | cons x xs ih =>
    have hx : x ≠ c := ha x (List.mem_cons_self x xs)
    have ih' := ih (fun y hy => ha y (List.mem_cons_of_mem x hy))
    simp [splitOnChar, hx, ih']

lemma splitOnChar_ne_nil (c : Char) (l : List Char) : splitOnChar c l ≠ [] := by
  cases l with
  | nil => simp [splitOnChar]
  | cons x xs =>
    unfold splitOnChar
    by_cases hx : x = c
    · simp [hx]
    · simp only [hx, if_false]
      cases splitOnChar c xs <;> simp

lemma splitOnChar_length (c : Char) (l : List Char) :
    (splitOnChar c l).length = l.count c + 1 := by
  induction l with
  | nil => rfl
  | cons x xs ih =>
    by_cases hx : x = c
    · subst hx
      simp [splitOnChar, List.count_cons, ih]
    · obtain ⟨y, ys, hy⟩ : ∃ y ys, splitOnChar c xs = y :: ys := by
        cases h : splitOnChar c xs with
        | nil => exact absurd h (splitOnChar_ne_nil c xs)
        | cons y ys => exact ⟨y, ys, rfl⟩
      rw [hy] at ih
      simp only [List.length_cons] at ih
      simp [splitOnChar, hx, hy, List.count_cons]
      omega

lemma jsNumber_digits (l : List Char) (hne : l ≠ [])
    (hd : l.all Char.isDigit = true) :
    jsNumber l = JSNum.num (digitsVal l) := by
  unfold jsNumber
  rw [if_neg hne, if_pos hd]

lemma digit_ne_colon {x : Char} (h : x.isDigit = true) : x ≠ ':' := by
  intro hx
  rw [hx] at h
  exact absurd h (by decide)

/-- C6: `timeToSeconds` on an `mm:ss` string (nonempty digit groups)
yields `minutes*60 + seconds`; for numeric boundaries the handler's
duration is `max(end - start, 1)`, never below 1 even when `end ≤
start`; the pre-check estimate is `ceil(duration*10) = duration*10`;
absent or empty timestamp fields default to `"0:00"`; and
`start=10, end=40` gives duration `30` and estimate `300`. -/
theorem C6_mmss_parse_duration_estimate :
    (∀ a b : List Char, a ≠ [] → b ≠ [] →
      a.all Char.isDigit = true → b.all Char.isDigit = true →
      timeToSeconds ⟨a ++ ':' :: b⟩ =
        JSNum.num (digitsVal a * 60 + digitsVal b)) ∧
    (∀ s e : ℤ, durationOf (JSNum.num s) (JSNum.num e) =
        JSNum.num (max (e - s) 1) ∧ 1 ≤ max (e - s) 1) ∧
    (∀ d : ℤ, preEstimate (JSNum.num d) = JSNum.num (d * 10)) ∧
    (bodyField none = "0:00" ∧ bodyField (some "") = "0:00") ∧
    (durationOf (timeToSeconds "0:10") (timeToSeconds "0:40") = JSNum.num 30 ∧
      preEstimate (durationOf (timeToSeconds "0:10") (timeToSeconds "0:40")) =
        JSNum.num 300) := by
  refine ⟨?_, ?_, ?_, ⟨rfl, rfl⟩, by decide, by decide⟩
  · intro a b hna hnb hda hdb
    have ha : ∀ x ∈ a, x ≠ ':' :=
      fun x hx => digit_ne_colon (List.all_eq_true.mp hda x hx)
    have hb : ∀ x ∈ b, x ≠ ':' :=
      fun x hx => digit_ne_colon (List.all_eq_true.mp hdb x hx)
    have hsplit : splitOnChar ':' (String.mk (a ++ ':' :: b)).data = [a, b] := by
      show splitOnChar ':' (a ++ ':' :: b) = [a, b]
      rw [splitOnChar_append ':' a b ha, splitOnChar_no_sep ':' b hb]
    unfold timeToSeconds
    rw [hsplit]
    simp only [List.map_cons, List.map_nil,
      jsNumber_digits a hna hda, jsNumber_digits b hnb hdb, List.getD]
    simp [JSNum.mul, JSNum.add]
  · intro s e
    refine ⟨by simp [durationOf, JSNum.sub, JSNum.jmax], le_max_right _ _⟩
  · intro d
    rfl

/-- C6 witness: `"10:05"` parses to `10*60 + 5 = 605` seconds. -/
theorem C6_mmss_parse_duration_estimate_witness :
    timeToSeconds ⟨['1', '0'] ++ ':' :: ['0', '5']⟩ =
      JSNum.num (digitsVal ['1', '0'] * 60 + digitsVal ['0', '5']) ∧
    1 ≤ max ((40 : ℤ) - 10) 1 :=
  ⟨C6_mmss_parse_duration_estimate.1 ['1', '0'] ['0', '5']
      (by decide) (by decide) (by decide) (by decide),
    (C6_mmss_parse_duration_estimate.2.1 10 40).2⟩

/-- C9 (implicit): the post-check word count splits the transcript on
the single space character and counts every segment, so the estimate is
`⌈(spaces+1)/0.75⌉` and is always at least 2; repeated spaces inflate it
(`"a  b"` gives 4) and non-space whitespace deflates it (`"a\tb"` counts
as one word, giving 2; `" hello world "` gives 6 against a natural count
of 2 words). -/
theorem C9_split_single_space_estimate (text : String) :
    postEstimate text = ⌈(((text.data.count ' ' + 1 : ℕ) : ℚ)) / (3 / 4)⌉ ∧
    2 ≤ postEstimate text ∧
    postEstimate "a  b" = 4 ∧
    postEstimate "a\tb" = 2 ∧
    postEstimate " hello world " = 6 := by
  have hlen := splitOnChar_length ' ' text.data
  refine ⟨?_, ?_, by decide, by decide, by decide⟩
  · rw [postEstimate_eq_ceil text, hlen]
  · unfold postEstimate
    have hn1 : (1 : ℤ) ≤ ((splitOnChar ' ' text.data).length : ℤ) := by
      rw [hlen]
      push_cast
      omega
    set n : ℤ := ((splitOnChar ' ' text.data).length : ℤ) with hn
    rw [Int.fdiv_eq_ediv _ (by norm_num)]
    have hle : -(4 * n) ≤ -4 := by omega
    have hdivle : (-(4 * n)) / 3 ≤ (-4 : ℤ) / 3 :=
      Int.ediv_le_ediv (by norm_num) hle
    have hm4 : ((-4 : ℤ)) / 3 = -2 := by decide
    omega

/-- C7 witness: an HTML error page from upstream on a request with valid
auth, quota headroom and a file. -/
theorem C7_parse_failure_500_no_increment_witness :
    handler ⟨some "Bearer t", none, none, some "f"⟩
      ⟨.resolved (some 100), true, true, .resolved (.notJson "<html>"), .resolved true⟩ =
      (⟨500, .errMsg "Could not parse Whisper response."⟩,
        stageEvents ⟨some "Bearer t", none, none, some "f"⟩ ++
          [.upstreamCall (sliceGuard ⟨some "Bearer t", none, none, some "f"⟩)]) :=
  (C7_parse_failure_500_no_increment _ _ "<html>" (by decide) rfl).1
